import Mathlib

set_option maxHeartbeats 1000000

/-!
Shallow embedding of `core/postprocessing.py` (the Watcher3 post-processing
pipeline).  Python strings are modelled as Lean `String` (a structure holding a
`List Char`); the string algorithms are written on `List Char`, with explicit
fuel where the Python loop is not structurally recursive, so that every
definition reduces inside the kernel.  External collaborators (filesystem,
record store, snatcher, metadata service) are modelled as explicit outcome
parameters, following the source's call sites.
-/

/-- Python `str.replace` for a non-empty pattern: scan left to right replacing
non-overlapping occurrences.  Fuel at least `length + 1` of the scanned list
makes the zero-fuel fallback unreachable; `pyReplace` passes `length + 1`. -/
def pyReplaceFuel : Nat → List Char → List Char → List Char → List Char
  | 0, _, _, s => s
  | _ + 1, _, _, [] => []
  | f + 1, old, new, c :: rest =>
    if old.isPrefixOf (c :: rest) then
      new ++ pyReplaceFuel f old new ((c :: rest).drop old.length)
    else
      c :: pyReplaceFuel f old new rest

/-- Python `str.replace`.  For an empty pattern Python inserts the replacement
before every character and once at the end. -/
def pyReplace (s old new : List Char) : List Char :=
  match old with
  | [] => new ++ s.flatMap (fun c => c :: new)
  | _ :: _ => pyReplaceFuel (s.length + 1) old new s

/-- Ordered-dict lookup, first entry wins (Python dict keys are unique). -/
def dlookup {α : Type} : List (String × α) → String → Option α
  | [], _ => none
  | (k, v) :: rest, key => if k = key then some v else dlookup rest key

/-- Python dict assignment `d[key] = v`: overwrite an existing key in place,
otherwise append at the end (insertion order). -/
def dset {α : Type} : List (String × α) → String → α → List (String × α)
  | [], key, v => [(key, v)]
  | (k, w) :: rest, key, v =>
    if k = key then (key, v) :: rest else (k, w) :: dset rest key v

/-- Python `max(xs, key=len)` over strings: the running best is replaced only
on a strictly greater length, so the first longest element wins. -/
def pyMaxLen (x : String) : List String → String
  | [] => x
  | y :: rest => pyMaxLen (if x.length < y.length then y else x) rest

/-- `map_remote` (postprocessing.py lines 465-495): collect every remote key
whose string is a `startswith` match of `path`; if none match return `path`;
otherwise take the longest match (Python `max(matches, key=len)`) and apply
Python `str.replace` of that remote string by its local counterpart. -/
def map_remote (maps : List (String × String)) (path : String) : String :=
  match (maps.filter (fun m => m.1.data.isPrefixOf path.data)).map Prod.fst with
  | [] => path
  | m :: ms =>
    let best := pyMaxLen m ms
    ⟨pyReplace path.data best.data ((dlookup maps best).getD "").data⟩

theorem dlookup_dset_self {α : Type} (d : List (String × α)) (k : String) (v : α) :
    dlookup (dset d k v) k = some v := by
  induction d with
  | nil => simp [dset, dlookup]
  | cons hd tl ih =>
    obtain ⟨k1, v1⟩ := hd
    by_cases h : k1 = k
    · simp [dset, h, dlookup]
    · simp [dset, h, dlookup, ih]

theorem dlookup_dset_ne {α : Type} (d : List (String × α)) (k k2 : String) (v : α)
    (h : k ≠ k2) : dlookup (dset d k v) k2 = dlookup d k2 := by
  induction d with
  | nil => simp [dset, dlookup, h]
  | cons hd tl ih =>
    obtain ⟨k1, v1⟩ := hd
    by_cases h1 : k1 = k
    · subst h1; simp [dset, dlookup, h]
    · simp only [dset, if_neg h1]
      by_cases h2 : k1 = k2
      · simp [dlookup, h2]
      · simp [dlookup, h2, ih]

theorem pyMaxLen_mem (l : List String) (x : String) : pyMaxLen x l ∈ x :: l := by
  induction l generalizing x with
  | nil => simp [pyMaxLen]
  | cons y rest ih =>
    by_cases hc : x.length < y.length
    · simp only [pyMaxLen, if_pos hc]
      exact List.mem_cons_of_mem x (ih y)
    · simp only [pyMaxLen, if_neg hc]
      rcases List.mem_cons.mp (ih x) with h | h
      · simp [h]
      · exact List.mem_cons_of_mem _ (List.mem_cons_of_mem _ h)

theorem pyMaxLen_ge (l : List String) : ∀ x y : String, y ∈ x :: l →
    y.length ≤ (pyMaxLen x l).length := by
  induction l with
  | nil =>
    intro x y hy
    rcases List.mem_cons.mp hy with h | h
    · subst h; simp [pyMaxLen]
    · simp at h
  | cons z rest ih =>
    intro x y hy
    simp only [pyMaxLen]
    have hxx : x.length ≤ (if x.length < z.length then z else x).length := by
      by_cases hc : x.length < z.length
      · rw [if_pos hc]; omega
      · rw [if_neg hc]
    have hzz : z.length ≤ (if x.length < z.length then z else x).length := by
      by_cases hc : x.length < z.length
      · rw [if_pos hc]
      · rw [if_neg hc]; omega
    have hself := ih (if x.length < z.length then z else x)
      (if x.length < z.length then z else x) (List.mem_cons_self _ _)
    rcases List.mem_cons.mp hy with h | h
    · subst h; exact le_trans hxx hself
    · rcases List.mem_cons.mp h with h2 | h2
      · subst h2; exact le_trans hzz hself
      · exact ih _ y (List.mem_cons_of_mem _ h2)

theorem dlookup_of_mem_keys {α : Type} (l : List (String × α)) (k : String)
    (h : k ∈ l.map Prod.fst) : ∃ v, dlookup l k = some v ∧ (k, v) ∈ l := by
  induction l with
  | nil => simp at h
  | cons hd tl ih =>
    obtain ⟨k1, v1⟩ := hd
    by_cases h1 : k1 = k
    · subst h1; exact ⟨v1, by simp [dlookup], by simp⟩
    · simp only [List.map_cons, List.mem_cons] at h
      rcases h with h | h

      · exact absurd h.symm h1
      · obtain ⟨v, hv, hmem⟩ := ih h
        exact ⟨v, by simp [dlookup, h1, hv], List.mem_cons_of_mem _ hmem⟩

/-- C4 (amended): if no remote is a string-prefix of `p`, `map_remote` returns
`p` unchanged; if some remote matches, a longest matching remote `m` is
selected together with its local counterpart `loc`, and the result is Python
`str.replace` of `m` by `loc` applied to the whole of `p` — i.e. every
occurrence of the substring `m` in `p` is replaced, not only the leading
prefix occurrence. -/
theorem C4_map_remote_spec (maps : List (String × String)) (p : String) :
    ((∀ q ∈ maps, q.1.data.isPrefixOf p.data = false) → map_remote maps p = p) ∧
    (∀ q ∈ maps, q.1.data.isPrefixOf p.data = true →
      ∃ m loc, (m, loc) ∈ maps ∧ m.data.isPrefixOf p.data = true ∧
        (∀ q2 ∈ maps, q2.1.data.isPrefixOf p.data = true →
          q2.1.length ≤ m.length) ∧
        map_remote maps p = ⟨pyReplace p.data m.data loc.data⟩) := by
  constructor
  · intro hall
    have hfil : maps.filter (fun m => m.1.data.isPrefixOf p.data) = [] := by
      rw [List.filter_eq_nil_iff]
      intro q hq
      simp [hall q hq]
    unfold map_remote
    rw [hfil]
    rfl
  · intro q hq hpre
    have hqf : q ∈ maps.filter (fun m => m.1.data.isPrefixOf p.data) :=
      List.mem_filter.mpr ⟨hq, by simp [hpre]⟩
    set F := (maps.filter (fun m => m.1.data.isPrefixOf p.data)).map Prod.fst with hF
    have hne : F ≠ [] := by
      intro hnil
      have : q.1 ∈ F := List.mem_map.mpr ⟨q, hqf, rfl⟩
      rw [hnil] at this
      exact absurd this (List.not_mem_nil _)
    obtain ⟨m0, ms, hcons⟩ := List.exists_cons_of_ne_nil hne
    have hbest_mem : pyMaxLen m0 ms ∈ F := by
      rw [hcons]; exact pyMaxLen_mem ms m0
    have hbest_filter : pyMaxLen m0 ms ∈
        (maps.filter (fun m => m.1.data.isPrefixOf p.data)).map Prod.fst := by
      rw [← hF]; exact hbest_mem
    obtain ⟨pair, hpair_mem, hpair_fst⟩ := List.mem_map.mp hbest_filter
    have hpair_maps : pair ∈ maps := (List.mem_filter.mp hpair_mem).1
    have hpair_pre : pair.1.data.isPrefixOf p.data = true := by
      have := (List.mem_filter.mp hpair_mem).2
      simpa using this
    have hkeys : pyMaxLen m0 ms ∈ maps.map Prod.fst := by
      rw [← hpair_fst]; exact List.mem_map.mpr ⟨pair, hpair_maps, rfl⟩
    obtain ⟨loc, hloc, hloc_mem⟩ := dlookup_of_mem_keys maps (pyMaxLen m0 ms) hkeys
    refine ⟨pyMaxLen m0 ms, loc, hloc_mem, by rw [← hpair_fst]; exact hpair_pre, ?_, ?_⟩
    · intro q2 hq2 hq2pre
      have hq2F : q2.1 ∈ F := by
        rw [hF]
        exact List.mem_map.mpr ⟨q2, List.mem_filter.mpr ⟨hq2, by simp [hq2pre]⟩, rfl⟩
      rw [hcons] at hq2F
      exact pyMaxLen_ge ms m0 q2.1 hq2F
    · unfold map_remote
      rw [← hF, hcons]
      simp only [hloc, Option.getD_some]

/-- C4 counterexample: with the single mapping `/d ↦ /x` and path `/d/d/f`,
the code returns `/x/x/f` (Python `str.replace` rewrites every occurrence of
the matched remote string), not `/x/d/f` as prefix-only replacement would. -/
theorem C4_counterexample :
    map_remote [("/d", "/x")] "/d/d/f" = "/x/x/f" ∧ ("/x/x/f" : String) ≠ "/x/d/f" := by
  constructor
  · rfl
  · decide

/-- Substring containment, Python `pat in s` for strings: some tail of `s`
starts with `pat`. -/
def containsSub (s pat : List Char) : Bool :=
  s.tails.any (fun t => pat.isPrefixOf t)

/-- One pass of the whitespace-collapse loop body
(`new_string.replace('  ', ' ')`). -/
def collapseStep (s : List Char) : List Char :=
  pyReplace s [' ', ' '] [' ']

/-- The `while '  ' in new_string:` loop of `compile_path` (lines 518-519),
written with fuel; `length s` iterations suffice because each executed pass
strictly shrinks the string (proved below), so the fallback is unreachable. -/
def collapseLoop : Nat → List Char → List Char
  | 0, s => s
  | f + 1, s => if containsSub s [' ', ' '] then collapseLoop f (collapseStep s) else s

def collapseSpaces (s : List Char) : List Char :=
  collapseLoop s.length s

/-- The `while len(new_string) > 1 and new_string[-1] == ' ':` loop of
`compile_path` (lines 521-522), with fuel; each executed pass drops the last
character so `length s` iterations suffice. -/
def rstripLoop : Nat → List Char → List Char
  | 0, s => s
  | f + 1, s =>
    if 1 < s.length ∧ s.getLast? = some ' ' then rstripLoop f s.dropLast else s

def rstripSpaces (s : List Char) : List Char :=
  rstripLoop s.length s

/-- The characters of the character class in `re.sub(r'["*?<>|]+', repl, s)`. -/
def illegalChar (c : Char) : Bool :=
  c = '\"' || c = '*' || c = '?' || c = '<' || c = '>' || c = '|'

/-- Model of `re.sub(r'["*?<>|]+', repl, s)` (sanitize, line 804): each
maximal run of one or more illegal characters is replaced by a single copy of
`repl`.  Fuel `length s` suffices (each step consumes at least one char). -/
def subIllegalFuel : Nat → List Char → List Char → List Char
  | 0, _, s => s
  | _ + 1, _, [] => []
  | f + 1, repl, c :: rest =>
    if illegalChar c then repl ++ subIllegalFuel f repl (rest.dropWhile illegalChar)
    else c :: subIllegalFuel f repl rest

def subIllegal (repl s : List Char) : List Char :=
  subIllegalFuel s.length repl s

/-- Model of `os.path.splitdrive` as used by sanitize (line 806): the ntpath
drive-letter rule — a second character `:` makes the first two characters the
drive.  (posixpath always returns an empty drive; UNC share detection, which
never interacts with the colon replacement below for the paths handled here,
is elided.) -/
def splitdrive (p : List Char) : List Char × List Char :=
  match p with
  | a :: ':' :: rest => ([a, ':'], rest)
  | _ => ([], p)

structure Config where
  renamerenabled : Bool
  moverenabled : Bool
  cleanupenabled : Bool
  cleanupfailed : Bool
  replacespaces : Bool
  movermethod : String
  renamerstring : String
  replaceillegal : String
  remotemapping : List (String × String)
  autograb : Bool

/-- `sanitize` (lines 792-808): substitute runs of illegal characters, split
off the drive, and replace `:` only in the part after the drive. -/
def sanitize (repl : String) (s : String) : String :=
  let t := subIllegal repl.data s.data
  let dp := splitdrive t
  ⟨dp.1 ++ pyReplace dp.2 [':'] repl.data⟩

/-- `compile_path` (lines 497-528): substitute `{key}` for every field whose
brace form occurs in the working string (Python `None` values substitute as
the empty string via `v or ''`), collapse double spaces, strip trailing
spaces down to at most length 1, re-apply `map_remote`, and sanitize. -/
def compile_path (cfg : Config) (template : String)
    (fields : List (String × Option String)) : String :=
  let s0 := fields.foldl (fun acc kv =>
    let k := '{' :: kv.1.data ++ ['}']
    if containsSub acc k then pyReplace acc k (kv.2.getD "").data else acc)
    template.data
  let s1 := collapseSpaces s0
  let s2 := rstripSpaces s1
  let s3 := map_remote cfg.remotemapping ⟨s2⟩
  sanitize cfg.replaceillegal s3

/-- Helper for the anchored placeholder check: scanning after a leading `{`,
the lazy group `(.*?)` (whose `.` does not match a newline) succeeds exactly
when a `}` appears before any newline. -/
def braceBeforeNewline : List Char → Bool
  | [] => false
  | c :: rest => if c = '}' then true else if c = '\n' then false else braceBeforeNewline rest

/-- Model of `re.match(r'{(.*?)}', renamer_string)` being a match (renamer,
line 544).  `re.match` anchors at the start of the string: the string must
begin with `{` and close the group before any newline. -/
def hasPlaceholderAnchored : List Char → Bool
  | '{' :: rest => braceBeforeNewline rest
  | _ => false

/-- Model of `os.path.splitext` (posixpath): the extension starts at the last
dot of the basename, provided a non-dot character comes before it in the
basename (leading dots never start an extension). -/
def splitext (p : List Char) : List Char × List Char :=
  let base := (p.reverse.takeWhile (fun c => c ≠ '/')).reverse
  let core := base.drop ((base.takeWhile (fun c => c = '.')).length)
  if core.any (fun c => c = '.') then
    let after := core.reverse.takeWhile (fun c => c ≠ '.')
    (p.take (p.length - after.length - 1), '.' :: after.reverse)
  else (p, [])

/-- `renamer` (lines 530-579).  The filesystem outcome of `os.rename` is the
parameter `renameOk`; the renamed target path (`abs_path_new`) does not enter
the return value, which is the bare new file name, so it is not modelled
here.  Returns the empty string on every failure path, as the source does. -/
def renamer (cfg : Config) (fields : List (String × Option String))
    (movie_file : String) (renameOk : Bool) : String :=
  if hasPlaceholderAnchored cfg.renamerstring.data = false then ""
  else
    let ext := (splitext movie_file.data).2
    let new_name := compile_path cfg cfg.renamerstring fields
    if new_name = "" then ""
    else
      let n1 := if cfg.replacespaces then pyReplace new_name.data [' '] ['.'] else new_name.data
      if renameOk then ⟨n1 ++ ext⟩ else ""

theorem pyReplaceFuel_succ_cons (f : Nat) (old new : List Char) (c : Char) (rest : List Char) :
    pyReplaceFuel (f + 1) old new (c :: rest) =
      if old.isPrefixOf (c :: rest) then
        new ++ pyReplaceFuel f old new ((c :: rest).drop old.length)
      else c :: pyReplaceFuel f old new rest := rfl

theorem subIllegalFuel_succ_cons (f : Nat) (repl : List Char) (c : Char) (rest : List Char) :
    subIllegalFuel (f + 1) repl (c :: rest) =
      if illegalChar c then repl ++ subIllegalFuel f repl (rest.dropWhile illegalChar)
      else c :: subIllegalFuel f repl rest := rfl

theorem containsSub_cons (c : Char) (rest pat : List Char) :
    containsSub (c :: rest) pat = (pat.isPrefixOf (c :: rest) || containsSub rest pat) := rfl

theorem collapse_pass_len_le :
    ∀ (f : Nat) (s : List Char), (pyReplaceFuel f [' ', ' '] [' '] s).length ≤ s.length := by
  intro f
  induction f with
  | zero => intro s; simp [pyReplaceFuel]
  | succ f ih =>
    intro s
    cases s with
    | nil => simp [pyReplaceFuel]
    | cons c rest =>
      rw [pyReplaceFuel_succ_cons]
      by_cases h : ([' ', ' '] : List Char).isPrefixOf (c :: rest) = true
      · rw [if_pos h]
        have hih := ih ((c :: rest).drop ([' ', ' '] : List Char).length)
        simp only [List.length_append, List.length_cons, List.length_drop,
          List.length_nil] at *
        omega
      · rw [if_neg h]
        have hih := ih rest
        simp only [List.length_cons]
        omega

theorem collapse_pass_len_lt :
    ∀ (f : Nat) (s : List Char), s.length ≤ f → containsSub s [' ', ' '] = true →
      (pyReplaceFuel f [' ', ' '] [' '] s).length < s.length := by
  intro f
  induction f with
  | zero =>
    intro s hle hc
    have hnil : s = [] := List.length_eq_zero.mp (Nat.le_zero.mp hle)
    subst hnil
    exact absurd hc (by decide)
  | succ f ih =>
    intro s hle hc
    cases s with
    | nil => exact absurd hc (by decide)
    | cons c rest =>
      rw [pyReplaceFuel_succ_cons]
      by_cases h : ([' ', ' '] : List Char).isPrefixOf (c :: rest) = true
      · rw [if_pos h]
        cases rest with
        | nil => simp [List.isPrefixOf] at h
        | cons r rest2 =>
          have hdrop : ((c :: r :: rest2).drop ([' ', ' '] : List Char).length) = rest2 := rfl
          rw [hdrop]
          have hle2 := collapse_pass_len_le f rest2
          simp only [List.length_append, List.length_cons, List.length_nil]
          omega
      · rw [if_neg h]
        have hc2 : containsSub rest [' ', ' '] = true := by
          rw [containsSub_cons] at hc
          rcases Bool.or_eq_true_iff.mp hc with h1 | h1
          · exact absurd h1 h
          · exact h1
        have hlen : rest.length ≤ f := by
          simp only [List.length_cons] at hle; omega
        have := ih rest hlen hc2
        simp only [List.length_cons]
        omega

theorem collapseLoop_no_double :
    ∀ (f : Nat) (s : List Char), s.length ≤ f →
      containsSub (collapseLoop f s) [' ', ' '] = false := by
  intro f
  induction f with
  | zero =>
    intro s hle
    have hnil : s = [] := List.length_eq_zero.mp (Nat.le_zero.mp hle)
    subst hnil
    decide
  | succ f ih =>
    intro s hle
    by_cases hc : containsSub s [' ', ' '] = true
    · simp only [collapseLoop, if_pos hc, collapseStep]
      apply ih
      have hlt : (pyReplace s [' ', ' '] [' ']).length < s.length := by
        have := collapse_pass_len_lt (s.length + 1) s (by omega) hc
        simpa [pyReplace] using this
      omega
    · simp only [collapseLoop, if_neg hc]
      exact Bool.eq_false_iff.mpr hc

theorem rstripLoop_ne_nil : ∀ (f : Nat) (s : List Char), s ≠ [] → rstripLoop f s ≠ [] := by
  intro f
  induction f with
  | zero => intro s h; simpa [rstripLoop] using h
  | succ f ih =>
    intro s h
    by_cases hc : 1 < s.length ∧ s.getLast? = some ' '
    · simp only [rstripLoop, if_pos hc]
      apply ih
      intro hnil
      have := congrArg List.length hnil
      simp only [List.length_dropLast, List.length_nil] at this
      omega
    · simpa only [rstripLoop, if_neg hc] using h

theorem rstripLoop_no_trailing : ∀ (f : Nat) (s : List Char), s.length ≤ f →
    1 < (rstripLoop f s).length → (rstripLoop f s).getLast? ≠ some ' ' := by
  intro f
  induction f with
  | zero =>
    intro s hle
    have hnil : s = [] := List.length_eq_zero.mp (Nat.le_zero.mp hle)
    subst hnil
    simp [rstripLoop]
  | succ f ih =>
    intro s hle
    by_cases hc : 1 < s.length ∧ s.getLast? = some ' '
    · simp only [rstripLoop, if_pos hc]
      apply ih
      simp only [List.length_dropLast]
      omega
    · simp only [rstripLoop, if_neg hc]
      intro hlen heq
      exact hc ⟨hlen, heq⟩

theorem pyReplace_space_dot_ne_nil (s : List Char) (h : s ≠ []) :
    pyReplace s [' '] ['.'] ≠ [] := by
  cases s with
  | nil => exact absurd rfl h
  | cons c rest =>
    show pyReplaceFuel ((c :: rest).length + 1) [' '] ['.'] (c :: rest) ≠ []
    have hlen : (c :: rest).length + 1 = rest.length + 1 + 1 := by simp
    rw [hlen, pyReplaceFuel_succ_cons]
    by_cases hp : ([' '] : List Char).isPrefixOf (c :: rest) = true
    · rw [if_pos hp]; simp
    · rw [if_neg hp]; simp

theorem splitdrive_letter (a : Char) (rest : List Char) :
    splitdrive (a :: ':' :: rest) = ([a, ':'], rest) := rfl

/-- C5 (amended): `renamer` returns the empty-string no-op failure exactly
when the anchored placeholder check fails (the template must begin with a
`{...}` group, because the source uses `re.match`, which anchors at the start
of the string), or the compiled name is blank, or the filesystem rename
fails.  A template containing a placeholder that is not at the very start is
rejected. -/
theorem C5_renamer_failure_iff (cfg : Config) (fields : List (String × Option String))
    (movie_file : String) (renameOk : Bool) :
    renamer cfg fields movie_file renameOk = "" ↔
      (hasPlaceholderAnchored cfg.renamerstring.data = false ∨
       compile_path cfg cfg.renamerstring fields = "" ∨ renameOk = false) := by
  unfold renamer
  by_cases h1 : hasPlaceholderAnchored cfg.renamerstring.data = false
  · simp [h1]
  · rw [if_neg h1]
    by_cases h2 : compile_path cfg cfg.renamerstring fields = ""
    · simp [h2]
    · rw [if_neg h2]
      cases renameOk with
      | false => simp [h1, h2]
      | true =>
        simp only [if_pos rfl]
        have hd : (compile_path cfg cfg.renamerstring fields).data ≠ [] := by
          intro hnil
          apply h2
          apply String.ext
          simpa using hnil
        have hn1 : (if cfg.replacespaces then
            pyReplace (compile_path cfg cfg.renamerstring fields).data [' '] ['.']
          else (compile_path cfg cfg.renamerstring fields).data) ≠ [] := by
          by_cases hrs : cfg.replacespaces = true
          · rw [if_pos hrs]
            exact pyReplace_space_dot_ne_nil _ hd
          · rw [if_neg hrs]
            exact hd
        constructor
        · intro hEq
          exfalso
          apply hn1
          have := congrArg String.data hEq
          simp only [String.data] at this
          rcases List.append_eq_nil.mp (by simpa using this) with ⟨ha, _⟩
          exact absurd ha hn1
        · intro hOr
          rcases hOr with h | h | h
          · exact absurd h h1
          · exact absurd h h2
          · exact absurd h (by simp)

def cfgC5 : Config :=
  { renamerenabled := true, moverenabled := true, cleanupenabled := false,
    cleanupfailed := false, replacespaces := false, movermethod := "move",
    renamerstring := "a{t}", replaceillegal := "", remotemapping := [],
    autograb := false }

/-- C5 counterexample: with template `a{t}` — which contains the placeholder
`{t}` but does not start with it — the compiled name is the non-blank `aX`
and the filesystem rename succeeds, yet `renamer` still returns the no-op
failure, because `re.match` anchors the placeholder check at the start of the
template. -/
theorem C5_counterexample :
    renamer cfgC5 [("t", some "X")] "/d/m.mkv" true = "" ∧
    compile_path cfgC5 "a{t}" [("t", some "X")] = "aX" := by
  exact ⟨rfl, rfl⟩

/-- C5 witness: the amended equivalence applied at a concrete failing rename. -/
theorem C5_witness : renamer cfgC5 [("t", some "X")] "/d/m.mkv" false = "" :=
  (C5_renamer_failure_iff cfgC5 [("t", some "X")] "/d/m.mkv" false).mpr
    (Or.inr (Or.inr rfl))

/-- C6 (amended): `sanitize` with replacement `""` maps `Movie: Part*Two` to
`Movie PartTwo` (the `*` sits between `Part` and `Two` with no surrounding
spaces, so deleting it joins the words); and for any string whose second
character is `:` with a legal first character, the two-character drive is
preserved verbatim while `:` is replaced only in the remainder. -/
theorem C6_sanitize_spec :
    sanitize "" "Movie: Part*Two" = "Movie PartTwo" ∧
    (∀ (repl : String) (c : Char) (rest : List Char), illegalChar c = false →
      sanitize repl ⟨c :: ':' :: rest⟩ =
        ⟨c :: ':' :: pyReplace (subIllegal repl.data rest) [':'] repl.data⟩) := by
  constructor
  · rfl
  · intro repl c rest hc
    unfold sanitize
    have hsub : subIllegal repl.data (c :: ':' :: rest) =
        c :: ':' :: subIllegal repl.data rest := by
      show subIllegalFuel ((c :: ':' :: rest).length) repl.data (c :: ':' :: rest) = _
      have hlen : (c :: ':' :: rest).length = rest.length + 1 + 1 := by simp
      rw [hlen, subIllegalFuel_succ_cons, if_neg (by simp [hc])]
      rfl
    rw [hsub]
    rfl

/-- C6 counterexample: the value claimed for `sanitize('Movie: Part*Two')`
under replacement `""` is `Movie Part Two`; the code produces `Movie PartTwo`
(no space is created where the `*` was removed). -/
theorem C6_counterexample : sanitize "" "Movie: Part*Two" ≠ "Movie Part Two" := by
  decide

/-- C6 witness: the drive-preservation clause applied at a concrete path. -/
theorem C6_witness :
    illegalChar 'C' = false ∧
    sanitize "_" ⟨'C' :: ':' :: "/Mo:vie".data⟩ =
      ⟨'C' :: ':' :: pyReplace (subIllegal "_".data "/Mo:vie".data) [':'] "_".data⟩ :=
  ⟨by decide, C6_sanitize_spec.2 "_" 'C' "/Mo:vie".data (by decide)⟩

def cfgC7 : Config :=
  { renamerenabled := true, moverenabled := true, cleanupenabled := false,
    cleanupfailed := false, replacespaces := false, movermethod := "move",
    renamerstring := "{title}", replaceillegal := "", remotemapping := [],
    autograb := false }

/-- C7 (amended): `compile_path` substitutes fields that are present in the
field map (a Python `None` value substitutes exactly like the empty string),
the whitespace loop leaves no double space, the trailing-space loop never
empties a non-empty string and leaves no trailing space on results longer
than one character, and the concrete example compiles to `X`.  A `{key}`
whose key is absent from the field map is left in place, not replaced by the
empty string (see the counterexample). -/
theorem C7_compile_path_spec :
    compile_path cfgC7 "{a} {b}" [("a", some "X"), ("b", some "")] = "X" ∧
    (∀ s : List Char, containsSub (collapseSpaces s) [' ', ' '] = false) ∧
    (∀ s : List Char, s ≠ [] → rstripSpaces s ≠ []) ∧
    (∀ s : List Char, 1 < (rstripSpaces s).length → (rstripSpaces s).getLast? ≠ some ' ') ∧
    (∀ (cfg : Config) (t k : String),
      compile_path cfg t [(k, none)] = compile_path cfg t [(k, some "")]) := by
  refine ⟨rfl, ?_, ?_, ?_, ?_⟩
  · intro s
    exact collapseLoop_no_double s.length s (le_refl _)
  · intro s h
    exact rstripLoop_ne_nil s.length s h
  · intro s
    exact rstripLoop_no_trailing s.length s (le_refl _)
  · intro cfg t k
    rfl

/-- C7 counterexample: a `{key}` whose key is missing from the field map is
left literally in the compiled string — it is not substituted by the empty
string as the claim states. -/
theorem C7_counterexample :
    compile_path cfgC7 "{a}" [] = "{a}" ∧ ("{a}" : String) ≠ "" := by
  exact ⟨rfl, by decide⟩

/-- C7 witness: the quantified clauses applied at concrete strings. -/
theorem C7_witness :
    containsSub (collapseSpaces "a    b".data) [' ', ' '] = false ∧
    ("ab ".data ≠ ([] : List Char) ∧ rstripSpaces "ab ".data ≠ []) ∧
    compile_path cfgC7 "{x}" [("x", none)] = compile_path cfgC7 "{x}" [("x", some "")] :=
  ⟨C7_compile_path_spec.2.1 "a    b".data,
   ⟨by decide, C7_compile_path_spec.2.2.1 "ab ".data (by decide)⟩,
   C7_compile_path_spec.2.2.2.2 cfgC7 "{x}" "x"⟩

/-- The scan of `get_movie_file` (lines 146-152): running best file and its
size, starting from `None` and `0`; a file replaces the best only when its
size is strictly greater, so the first file of maximal size wins. -/
def biggestLoop : Option String × Nat → List (String × Nat) → Option String × Nat
  | acc, [] => acc
  | acc, (file, size) :: rest =>
    if acc.2 < size then biggestLoop (some file, size) rest
    else biggestLoop acc rest

/-- `get_movie_file` (lines 115-156).  `isFile` is `os.path.isfile(path)`,
`listdirOk` is whether `os.listdir(path)` succeeds, and `walk` is the list of
(file, byte size) pairs produced by `os.walk` in traversal order.  The source
returns the string `path` or `''`, or the scan result `biggestfile`, which is
Python `None` when every file has size 0; `some ""` models `''` and `none`
models `None`. -/
def get_movie_file (path : String) (isFile listdirOk : Bool)
    (walk : List (String × Nat)) : Option String :=
  if isFile then some path
  else if listdirOk = false then some ""
  else if walk = [] then some ""
  else (biggestLoop (none, 0) walk).1

theorem biggestLoop_const (l : List (String × Nat)) :
    ∀ acc : Option String × Nat, (∀ q ∈ l, q.2 ≤ acc.2) → biggestLoop acc l = acc := by
  induction l with
  | nil => intro acc _; rfl
  | cons hd tl ih =>
    intro acc h
    obtain ⟨file, size⟩ := hd
    have hsz : size ≤ acc.2 := h (file, size) (List.mem_cons_self _ _)
    simp only [biggestLoop, if_neg (by omega : ¬acc.2 < size)]
    exact ih acc (fun q hq => h q (List.mem_cons_of_mem _ hq))

theorem biggestLoop_first_max (l1 : List (String × Nat)) (f : String) (s : Nat)
    (l2 : List (String × Nat)) :
    ∀ acc : Option String × Nat, acc.2 < s → (∀ q ∈ l1, q.2 < s) →
      (∀ q ∈ l2, q.2 ≤ s) → biggestLoop acc (l1 ++ (f, s) :: l2) = (some f, s) := by
  induction l1 with
  | nil =>
    intro acc hacc _ h2
    simp only [List.nil_append, biggestLoop, if_pos hacc]
    exact biggestLoop_const l2 (some f, s) h2
  | cons hd tl ih =>
    intro acc hacc h1 h2
    obtain ⟨g, t⟩ := hd
    have ht : t < s := h1 (g, t) (List.mem_cons_self _ _)
    have h1t : ∀ q ∈ tl, q.2 < s := fun q hq => h1 q (List.mem_cons_of_mem _ hq)
    by_cases hcmp : acc.2 < t
    · simp only [List.cons_append, biggestLoop, if_pos hcmp]
      exact ih (some g, t) ht h1t h2
    · simp only [List.cons_append, biggestLoop, if_neg hcmp]
      exact ih acc hacc h1t h2

/-- C8 (amended): `get_movie_file` returns the path itself for a regular
file; the empty-string not-found result when the directory cannot be listed
or the walk finds no files; the first file of maximal size in traversal order
when that maximal size is positive (strict-greater comparison breaks ties in
favour of the first file encountered); but when every file in the walk has
size 0 the scan's running best is never replaced (`s = 0`, `if size > s`) and
the source returns Python `None` — not the first file, and a value distinct
from the `''` not-found result. -/
theorem C8_get_movie_file_spec :
    (∀ (p : String) (lOk : Bool) (walk : List (String × Nat)),
      get_movie_file p true lOk walk = some p) ∧
    (∀ (p : String) (walk : List (String × Nat)),
      get_movie_file p false false walk = some "") ∧
    (∀ p : String, get_movie_file p false true [] = some "") ∧
    (∀ (p f : String) (s : Nat) (l1 l2 : List (String × Nat)),
      0 < s → (∀ q ∈ l1, q.2 < s) → (∀ q ∈ l2, q.2 ≤ s) →
      get_movie_file p false true (l1 ++ (f, s) :: l2) = some f) ∧
    (∀ (p : String) (walk : List (String × Nat)),
      walk ≠ [] → (∀ q ∈ walk, q.2 = 0) →
      get_movie_file p false true walk = none) := by
  refine ⟨fun p lOk walk => rfl, fun p walk => rfl, fun p => rfl, ?_, ?_⟩
  · intro p f s l1 l2 hs h1 h2
    have hne : l1 ++ (f, s) :: l2 ≠ [] := by simp
    have hred : get_movie_file p false true (l1 ++ (f, s) :: l2) =
        (biggestLoop (none, 0) (l1 ++ (f, s) :: l2)).1 := by
      simp [get_movie_file, hne]
    rw [hred, biggestLoop_first_max l1 f s l2 (none, 0) hs h1 h2]
  · intro p walk hne hz
    have hred : get_movie_file p false true walk =
        (biggestLoop (none, 0) walk).1 := by
      simp [get_movie_file, hne]
    rw [hred, biggestLoop_const walk (none, 0) (fun q hq => (hz q hq).le)]

/-- C8 counterexample: a directory whose walk finds only zero-byte files —
the claim's tie-break clause promises the first file encountered, but the
code returns Python `None` (modelled `none`), which is neither the first
file nor the empty-string not-found result. -/
theorem C8_counterexample :
    get_movie_file "/dl" false true [("/dl/a.mkv", 0), ("/dl/b.mkv", 0)] = none ∧
    (none : Option String) ≠ some "/dl/a.mkv" ∧
    (none : Option String) ≠ some "" := by
  refine ⟨rfl, by decide, by decide⟩

/-- C8 witness: the maximal-size clause at the spec's 10/500/200 example and
the zero-size clause at a concrete input. -/
theorem C8_witness :
    ((0 : Nat) < 500 ∧
     get_movie_file "/dl" false true
       [("/dl/a.nfo", 10), ("/dl/m.mkv", 500), ("/dl/s.srt", 200)] = some "/dl/m.mkv") ∧
    get_movie_file "/x" false true [("/x/a.mkv", 0)] = none :=
  ⟨⟨by decide,
    C8_get_movie_file_spec.2.2.2.1 "/dl" "/dl/m.mkv" 500 [("/dl/a.nfo", 10)]
      [("/dl/s.srt", 200)] (by decide) (by decide) (by decide)⟩,
   C8_get_movie_file_spec.2.2.2.2 "/x" [("/x/a.mkv", 0)] (by decide) (by decide)⟩

/-- Python truthiness of an optional string: an absent key and an empty
string are both falsy. -/
def pyTruthy (o : Option String) : Bool :=
  o.getD "" != ""

/-- The request fields that `complete` and `failed` read.  `none` models a key
that is absent from the Python dict. -/
structure PPData where
  guid : String
  guid2 : Option String
  imdbid : Option String
  quality : Option String
  path : String
  movie_file : String
  finished_file : Option String

/-- Values stored in the JSON-like report dicts the source builds: booleans,
Python `None`, strings and nested dicts. -/
inductive RVal where
  | vbool : Bool → RVal
  | vnone : RVal
  | vstr : String → RVal
  | vdict : List (String × RVal) → RVal

/-- Model of `posixpath.split`: split at the last slash; the head keeps its
trailing slashes only when it consists entirely of slashes. -/
def splitPath (p : List Char) : List Char × List Char :=
  let tail := (p.reverse.takeWhile (fun c => c ≠ '/')).reverse
  let head := p.take (p.length - tail.length)
  if head ≠ [] ∧ head.any (fun c => c ≠ '/') then
    ((head.reverse.dropWhile (fun c => c = '/')).reverse, tail)
  else (head, tail)

/-- Model of `posixpath.join` for two components. -/
def joinPath (a b : List Char) : List Char :=
  if b.head? = some '/' then b
  else if a = [] ∨ a.getLast? = some '/' then a ++ b
  else a ++ '/' :: b

def splitPathS (p : String) : String × String :=
  let q := splitPath p.data
  (⟨q.1⟩, ⟨q.2⟩)

def joinPathS (a b : String) : String :=
  ⟨joinPath a.data b.data⟩

/-- Outcomes of the external calls made from `complete`: record-store marking
(lines 353, 358, 370, 375), `movie_status` (392), `renamer` (407, the bare
new file name or `''`), `mover` (421, the new location or `''`),
`os.path.isfile(data['path'])` at the cleanup check (443), and
`self.cleanup(data['path'])` (453). -/
structure CompleteEnv where
  srOk : Bool
  mrOk : Bool
  srOk2 : Bool
  mrOk2 : Bool
  rowExists : Bool
  movieStatus : String
  renamerResult : String
  moverResult : String
  pathIsFile : Bool
  cleanupOk : Bool

/-- The observable result of `complete`: the report fields the claims speak
about (`result['status']`, `result['data']['original_file']`,
`result['data']['finished_file']`, the final `data['movie_file']`, the tasks
dict) plus whether `self.cleanup` was actually invoked. -/
structure CompleteOut where
  status : String
  original_file : String
  finished_file : Option String
  movie_file : String
  tasks : List (String × RVal)
  cleanupCalled : Bool

/-- The tasks dict of `complete` as it stands just before the cleanup section
(after lines 349-429).  Quirks kept from the source: the guid entries are
keyed by the guid *value* (lines 364, 382), and the renamer-disabled branch
writes its `{'enabled': False}` marker under the `'mover'` key (line 416),
so no `'renamer'` entry exists in that case. -/
def completeTasksPre (cfg : Config) (d : PPData) (env : CompleteEnv) :
    List (String × RVal) :=
  let tasks0 : List (String × RVal) := []
  -- lines 352-364: mark guid Finished when both guid and imdbid are truthy
  let tasks1 := if d.guid ≠ "" ∧ pyTruthy d.imdbid then
      dset tasks0 d.guid (RVal.vdict [("update_SEARCHRESULTS", RVal.vbool env.srOk),
                                      ("update_MARKEDRESULTS", RVal.vbool env.mrOk)])
    else tasks0
  -- lines 367-382: same for guid2
  let tasks2 := if pyTruthy d.guid2 ∧ pyTruthy d.imdbid then
      dset tasks1 (d.guid2.getD "")
        (RVal.vdict [("update_SEARCHRESULTS", RVal.vbool env.srOk2),
                     ("update_MARKEDRESULTS", RVal.vbool env.mrOk2)])
    else tasks1
  -- lines 385-399: movie status (r is '' when imdbid is falsy)
  let tasks3 := dset tasks2 "update_movie_status"
      (RVal.vstr (if pyTruthy d.imdbid then env.movieStatus else ""))
  -- lines 405-416: renamer; the disabled branch writes the mover key (source slip)
  let tasks4 := if cfg.renamerenabled then
      (if env.renamerResult = "" then
        dset tasks3 "renamer"
          (RVal.vdict [("enabled", RVal.vbool true), ("response", RVal.vbool false)])
      else
        dset tasks3 "renamer"
          (RVal.vdict [("enabled", RVal.vbool true), ("response", RVal.vbool true)]))
    else dset tasks3 "mover" (RVal.vdict [("enabled", RVal.vbool false)])
  -- lines 419-429: mover
  if cfg.moverenabled then
    (if env.moverResult = "" then
      dset tasks4 "mover"
        (RVal.vdict [("enabled", RVal.vbool true), ("response", RVal.vbool false)])
    else
      dset tasks4 "mover"
        (RVal.vdict [("enabled", RVal.vbool true), ("response", RVal.vbool true)]))
  else dset tasks4 "mover" (RVal.vdict [("enabled", RVal.vbool false)])

/-- The cleanup section of `complete` (lines 435-463): the status the request
ends with, the cleanup task entry, and whether `self.cleanup` was invoked.
The first two skip branches are the early `return result` paths of lines 441
and 446, which leave the status at its initial `'incomplete'`; the remaining
paths fall through to `result['status'] = 'finished'` (line 462).  The
disabled-or-failed mover test (line 449) reads the mover response written at
lines 423/426, which is False exactly when the mover result was `''`. -/
def cleanupBranch (cfg : Config) (env : CompleteEnv) : String × RVal × Bool :=
  if cfg.cleanupenabled then
    if cfg.movermethod = "hardlink" ∨ cfg.movermethod = "symboliclink" then
      ("incomplete",
       RVal.vdict [("enabled", RVal.vbool true), ("response", RVal.vnone)], false)
    else if env.pathIsFile then
      ("incomplete",
       RVal.vdict [("enabled", RVal.vbool true), ("response", RVal.vnone)], false)
    else if cfg.moverenabled = false ∨ env.moverResult = "" then
      ("finished",
       RVal.vdict [("enabled", RVal.vbool true), ("response", RVal.vnone)], false)
    else
      ("finished",
       RVal.vdict [("enabled", RVal.vbool true),
                   ("response", RVal.vbool env.cleanupOk)], true)
  else ("finished", RVal.vdict [("enabled", RVal.vbool false)], false)

/-- `complete` (lines 314-463).  The report starts at status `'incomplete'`
and only the paths falling through to line 462 set it to `'finished'`;
`finished_date` and the purely external record-store writes (`add_movie`,
`update_multiple`, `update`) and the `convert_to_db` metadata merge have no
effect on the modelled fields and are omitted. -/
def complete (cfg : Config) (d : PPData) (env : CompleteEnv) : CompleteOut :=
  -- line 402: original_file is the movie file before the renamer runs
  let original_file := d.movie_file
  -- lines 411-412: on renamer success movie_file moves to the new name in place
  let movie_file := if cfg.renamerenabled ∧ env.renamerResult ≠ "" then
      joinPathS (splitPathS d.movie_file).1 env.renamerResult
    else d.movie_file
  -- line 425: on mover success finished_file becomes the mover's return value
  let finished_file := if cfg.moverenabled ∧ env.moverResult ≠ "" then
      some env.moverResult
    else d.finished_file
  let br := cleanupBranch cfg env
  { status := br.1, original_file := original_file,
    finished_file := finished_file, movie_file := movie_file,
    tasks := dset (completeTasksPre cfg d env) "cleanup" br.2.1,
    cleanupCalled := br.2.2 }

/-- Outcomes of the external calls made from `failed`: record-store marking
(lines 244, 249, 261, 266), `movie_status` (276), `cleanup` (287),
`best_release` and `download` (299-300). -/
structure FailedEnv where
  srOk : Bool
  mrOk : Bool
  srOk2 : Bool
  mrOk2 : Bool
  movieStatus : String
  cleanupOk : Bool
  bestRelease : Bool
  downloadOk : Bool

structure FailedOut where
  status : String
  tasks : List (String × RVal)

/-- `failed` (lines 216-312).  The guid entry always carries at least the
`url` key; the marking booleans are added only when the guid is truthy.  The
guid2 block runs when the `'guid2'` key is present (note the source's
`'update SEARCHRESULTS'` key with a space).  The source reads
`data['imdbid']` by key (lines 249/274), so this model presumes the key is
present (possibly empty); a request dict lacking it would raise KeyError in
Python. -/
def failed (cfg : Config) (d : PPData) (env : FailedEnv) : FailedOut :=
  let guidEntry := if d.guid ≠ "" then
      RVal.vdict [("url", RVal.vstr d.guid),
                  ("update_SEARCHRESULTS", RVal.vbool env.srOk),
                  ("update_MARKEDRESULTS", RVal.vbool env.mrOk)]
    else RVal.vdict [("url", RVal.vstr d.guid)]
  let t1 := dset [] "guid" guidEntry
  let t2 := match d.guid2 with
    | some g2 => dset t1 "guid2"
        (RVal.vdict [("url", RVal.vstr g2),
                     ("update SEARCHRESULTS", RVal.vbool env.srOk2),
                     ("update_MARKEDRESULTS", RVal.vbool env.mrOk2)])
    | none => t1
  let t3 := dset t2 "update_movie_status"
      (RVal.vstr (if pyTruthy d.imdbid then env.movieStatus else ""))
  let t4 := dset t3 "cleanup"
      (if cfg.cleanupfailed then
        RVal.vdict [("enabled", RVal.vbool true), ("path", RVal.vstr d.path),
                    ("response", RVal.vbool env.cleanupOk)]
      else RVal.vdict [("enabled", RVal.vbool false)])
  let t5 := dset t4 "autograb"
      (if cfg.autograb then
        RVal.vdict [("enabled", RVal.vbool true),
                    ("response", RVal.vbool
                      (if pyTruthy d.imdbid ∧ pyTruthy d.quality then
                        env.bestRelease && env.downloadOk
                      else false))]
      else RVal.vdict [("enabled", RVal.vbool false)])
  { status := "finished", tasks := t5 }

/-- The request fields the `POST` handler validates.  `none` models a key
absent from `**data`. -/
structure POSTReq where
  apikey : Option String
  mode : Option String
  guid : Option String
  path : Option String

/-- The validation-failure response `{'response': False, 'error': msg}`. -/
def errResp (msg : String) : RVal :=
  RVal.vdict [("response", RVal.vbool false), ("error", RVal.vstr msg)]

/-- Result of the `POST` validation stage: the returned value and whether
control reached line 67 (`map_remote` onwards), where the filesystem and
record-store work of the request begins. -/
structure POSTOut where
  resp : RVal
  processed : Bool

/-- The validation part of `POST` (lines 44-62): required keys checked in the
order `apikey, mode, guid, path`, then the api key comparison, then the mode
check.  All side-effecting processing (path remapping, file location,
metadata gathering, the failed/complete pipelines) sits behind the last
check. -/
def POST (serverApikey : String) (req : POSTReq) : POSTOut :=
  if req.apikey = none then { resp := errResp "missing key: apikey", processed := false }
  else if req.mode = none then { resp := errResp "missing key: mode", processed := false }
  else if req.guid = none then { resp := errResp "missing key: guid", processed := false }
  else if req.path = none then { resp := errResp "missing key: path", processed := false }
  else if req.apikey ≠ some serverApikey then
    { resp := errResp "incorrect api key", processed := false }
  else if req.mode ≠ some "failed" ∧ req.mode ≠ some "complete" then
    { resp := errResp "invalid mode value", processed := false }
  else { resp := RVal.vnone, processed := true }

/-- C4 witness: the longest-match clause applied at a concrete mapping. -/
theorem C4_witness :
    ∃ m loc, (m, loc) ∈ [(("/a/" : String), ("/x/" : String))] ∧
      m.data.isPrefixOf "/a/f".data = true ∧
      (∀ q2 ∈ [(("/a/" : String), ("/x/" : String))],
        q2.1.data.isPrefixOf "/a/f".data = true → q2.1.length ≤ m.length) ∧
      map_remote [("/a/", "/x/")] "/a/f" = ⟨pyReplace "/a/f".data m.data loc.data⟩ :=
  (C4_map_remote_spec [("/a/", "/x/")] "/a/f").2 ("/a/", "/x/") (by decide) (by decide)

/-- C1 (amended): with renamer, mover and cleanup enabled, a non-link move
method and both steps succeeding, the report's `original_file` is the
pre-rename movie file and `finished_file` is the mover's result; if the
`isfile` check at the cleanup step still sees a file, the cleanup task is
skipped with response `None` but the early return leaves the status at
`'incomplete'`, not `'finished'`; if the check no longer sees a file (the
single-file source has been renamed and moved away), the status is
`'finished'` but cleanup is attempted rather than skipped. -/
theorem C1_complete_single_file (cfg : Config) (d : PPData) (env : CompleteEnv)
    (h1 : cfg.renamerenabled = true) (h2 : cfg.moverenabled = true)
    (h3 : cfg.cleanupenabled = true)
    (h4 : cfg.movermethod ≠ "hardlink") (h5 : cfg.movermethod ≠ "symboliclink")
    (h7 : env.renamerResult ≠ "") (h8 : env.moverResult ≠ "") :
    (complete cfg d env).original_file = d.movie_file ∧
    (complete cfg d env).finished_file = some env.moverResult ∧
    (env.pathIsFile = true →
      (complete cfg d env).status = "incomplete" ∧
      dlookup (complete cfg d env).tasks "cleanup" =
        some (RVal.vdict [("enabled", RVal.vbool true), ("response", RVal.vnone)]) ∧
      (complete cfg d env).cleanupCalled = false) ∧
    (env.pathIsFile = false →
      (complete cfg d env).status = "finished" ∧
      dlookup (complete cfg d env).tasks "cleanup" =
        some (RVal.vdict [("enabled", RVal.vbool true),
                          ("response", RVal.vbool env.cleanupOk)]) ∧
      (complete cfg d env).cleanupCalled = true) := by
  have hor : ¬(cfg.movermethod = "hardlink" ∨ cfg.movermethod = "symboliclink") := by
    rintro (hx | hx)
    · exact h4 hx
    · exact h5 hx
  refine ⟨rfl, ?_, ?_, ?_⟩
  · simp [complete, h2, h8]
  · intro hpf
    have hbr : cleanupBranch cfg env =
        ("incomplete",
         RVal.vdict [("enabled", RVal.vbool true), ("response", RVal.vnone)], false) := by
      simp [cleanupBranch, h3, hor, hpf]
    refine ⟨?_, ?_, ?_⟩ <;> simp [complete, hbr, dlookup_dset_self]
  · intro hpf
    have hbr : cleanupBranch cfg env =
        ("finished",
         RVal.vdict [("enabled", RVal.vbool true),
                     ("response", RVal.vbool env.cleanupOk)], true) := by
      simp [cleanupBranch, h3, hor, hpf, h2, h8]
    refine ⟨?_, ?_, ?_⟩ <;> simp [complete, hbr, dlookup_dset_self]

def cfgC1 : Config :=
  { renamerenabled := true, moverenabled := true, cleanupenabled := true,
    cleanupfailed := false, replacespaces := false, movermethod := "move",
    renamerstring := "{title} ({year})", replaceillegal := "",
    remotemapping := [], autograb := false }

def dC1 : PPData :=
  { guid := "guid123", guid2 := none, imdbid := some "tt0111161",
    quality := some "1080P", path := "/downloads/movie.mkv",
    movie_file := "/downloads/movie.mkv", finished_file := none }

def envC1 : CompleteEnv :=
  { srOk := true, mrOk := true, srOk2 := true, mrOk2 := true, rowExists := true,
    movieStatus := "Finished", renamerResult := "Movie (1994).mkv",
    moverResult := "/movies/Movie (1994)/Movie (1994).mkv", pathIsFile := true,
    cleanupOk := true }

/-- C1 counterexample: in the claim's scenario (single-file source with the
cleanup-time isfile check seeing a file, so cleanup is skipped with response
`None` exactly as the claim expects), the early return of line 446 skips
`result['status'] = 'finished'`: the status is `'incomplete'`, refuting the
claimed `'finished'`, although `original_file` and `finished_file` are as
claimed. -/
theorem C1_counterexample :
    (complete cfgC1 dC1 envC1).original_file = "/downloads/movie.mkv" ∧
    (complete cfgC1 dC1 envC1).finished_file =
      some "/movies/Movie (1994)/Movie (1994).mkv" ∧
    dlookup (complete cfgC1 dC1 envC1).tasks "cleanup" =
      some (RVal.vdict [("enabled", RVal.vbool true), ("response", RVal.vnone)]) ∧
    (complete cfgC1 dC1 envC1).status ≠ "finished" := by
  refine ⟨rfl, rfl, rfl, by decide⟩

/-- C1 witness: the amended theorem applied at the concrete scenario. -/
theorem C1_witness :
    cfgC1.cleanupenabled = true ∧ envC1.pathIsFile = true ∧
    (complete cfgC1 dC1 envC1).status = "incomplete" ∧
    (complete cfgC1 dC1 envC1).cleanupCalled = false :=
  ⟨rfl, rfl,
   ((C1_complete_single_file cfgC1 dC1 envC1 rfl rfl rfl (by decide) (by decide)
      (by decide) (by decide)).2.2.1 rfl).1,
   ((C1_complete_single_file cfgC1 dC1 envC1 rfl rfl rfl (by decide) (by decide)
      (by decide) (by decide)).2.2.1 rfl).2.2⟩

/-- C2 (amended): with cleanup enabled, the source-path deletion is attempted
exactly when the mover method is not a link, the cleanup-time isfile check is
false, and the mover is enabled *and* succeeded — a disabled mover also skips
cleanup (source comment line 434 and docstring lines 335-336), contrary to
the claim's "succeeded or was itself disabled"; whenever cleanup is enabled
and the deletion is not attempted, the cleanup entry is
`{'enabled': True, 'response': None}`. -/
theorem C2_cleanup_conditions (cfg : Config) (d : PPData) (env : CompleteEnv)
    (h : cfg.cleanupenabled = true) :
    ((complete cfg d env).cleanupCalled = true ↔
      (cfg.movermethod ≠ "hardlink" ∧ cfg.movermethod ≠ "symboliclink" ∧
       env.pathIsFile = false ∧ cfg.moverenabled = true ∧ env.moverResult ≠ "")) ∧
    ((complete cfg d env).cleanupCalled = false →
      dlookup (complete cfg d env).tasks "cleanup" =
        some (RVal.vdict [("enabled", RVal.vbool true), ("response", RVal.vnone)])) := by
  have hcc : (complete cfg d env).cleanupCalled = (cleanupBranch cfg env).2.2 := rfl
  have hct : (complete cfg d env).tasks =
      dset (completeTasksPre cfg d env) "cleanup" (cleanupBranch cfg env).2.1 := rfl
  by_cases hl : cfg.movermethod = "hardlink" ∨ cfg.movermethod = "symboliclink"
  · have hbr : cleanupBranch cfg env =
        ("incomplete",
         RVal.vdict [("enabled", RVal.vbool true), ("response", RVal.vnone)], false) := by
      simp [cleanupBranch, h, hl]
    constructor
    · rw [hcc, hbr]
      constructor
      · intro hx; exact absurd hx (by decide)
      · rintro ⟨ha, hb, -⟩
        rcases hl with hx | hx
        · exact absurd hx ha
        · exact absurd hx hb
    · intro _
      rw [hct, hbr, dlookup_dset_self]
  · by_cases hf : env.pathIsFile = true
    · have hbr : cleanupBranch cfg env =
          ("incomplete",
           RVal.vdict [("enabled", RVal.vbool true), ("response", RVal.vnone)], false) := by
        simp [cleanupBranch, h, hl, hf]
      constructor
      · rw [hcc, hbr]
        constructor
        · intro hx; exact absurd hx (by decide)
        · rintro ⟨-, -, hc, -⟩
          rw [hf] at hc
          exact absurd hc (by decide)
      · intro _
        rw [hct, hbr, dlookup_dset_self]
    · by_cases hm : cfg.moverenabled = false ∨ env.moverResult = ""
      · have hbr : cleanupBranch cfg env =
            ("finished",
             RVal.vdict [("enabled", RVal.vbool true), ("response", RVal.vnone)], false) := by
          simp [cleanupBranch, h, hl, hf, hm]
        constructor
        · rw [hcc, hbr]
          constructor
          · intro hx; exact absurd hx (by decide)
          · rintro ⟨-, -, -, hmen, hmres⟩
            rcases hm with hx | hx
            · rw [hmen] at hx
              exact absurd hx (by decide)
            · exact absurd hx hmres
        · intro _
          rw [hct, hbr, dlookup_dset_self]
      · have hpf : env.pathIsFile = false := Bool.eq_false_iff.mpr hf
        have hmen : cfg.moverenabled = true := by
          by_cases hx : cfg.moverenabled = true
          · exact hx
          · exact absurd (Or.inl (Bool.eq_false_iff.mpr hx)) hm
        have hmres : env.moverResult ≠ "" := fun hx => hm (Or.inr hx)
        have hl1 : cfg.movermethod ≠ "hardlink" := fun hx => hl (Or.inl hx)
        have hl2 : cfg.movermethod ≠ "symboliclink" := fun hx => hl (Or.inr hx)
        have hbr : cleanupBranch cfg env =
            ("finished",
             RVal.vdict [("enabled", RVal.vbool true),
                         ("response", RVal.vbool env.cleanupOk)], true) := by
          simp [cleanupBranch, h, hl, hf, hm]
        constructor
        · rw [hcc, hbr]
          constructor
          · intro _
            exact ⟨hl1, hl2, hpf, hmen, hmres⟩
          · intro _
            rfl
        · rw [hcc, hbr]
          intro hx
          simp at hx

def cfgC2x : Config :=
  { renamerenabled := false, moverenabled := false, cleanupenabled := true,
    cleanupfailed := false, replacespaces := false, movermethod := "move",
    renamerstring := "{title}", replaceillegal := "", remotemapping := [],
    autograb := false }

def dC2x : PPData :=
  { guid := "g2", guid2 := none, imdbid := some "tt0000002", quality := none,
    path := "/downloads/dir", movie_file := "/downloads/dir/m.mkv",
    finished_file := none }

def envC2x : CompleteEnv :=
  { srOk := true, mrOk := true, srOk2 := true, mrOk2 := true, rowExists := true,
    movieStatus := "Finished", renamerResult := "", moverResult := "",
    pathIsFile := false, cleanupOk := true }

/-- C2 counterexample: cleanup enabled, non-link move method, source path not
a file, mover *disabled* — the claim says the deletion is attempted (move
step "was itself disabled"), but the code skips it and records response
`None`. -/
theorem C2_counterexample :
    cfgC2x.cleanupenabled = true ∧ cfgC2x.moverenabled = false ∧
    cfgC2x.movermethod = "move" ∧ envC2x.pathIsFile = false ∧
    (complete cfgC2x dC2x envC2x).cleanupCalled = false ∧
    dlookup (complete cfgC2x dC2x envC2x).tasks "cleanup" =
      some (RVal.vdict [("enabled", RVal.vbool true), ("response", RVal.vnone)]) := by
  refine ⟨rfl, rfl, rfl, rfl, rfl, rfl⟩

/-- C2 witness: the amended theorem applied at the concrete skip scenario. -/
theorem C2_witness :
    dlookup (complete cfgC2x dC2x envC2x).tasks "cleanup" =
      some (RVal.vdict [("enabled", RVal.vbool true), ("response", RVal.vnone)]) :=
  (C2_cleanup_conditions cfgC2x dC2x envC2x rfl).2 (by decide)

def cfgC3 : Config :=
  { renamerenabled := false, moverenabled := false, cleanupenabled := false,
    cleanupfailed := false, replacespaces := false, movermethod := "move",
    renamerstring := "{title}", replaceillegal := "", remotemapping := [],
    autograb := false }

def dC3 : PPData :=
  { guid := "g3", guid2 := none, imdbid := some "tt0000003", quality := none,
    path := "/downloads/dir3", movie_file := "/downloads/dir3/m.mkv",
    finished_file := none }

def envC3 : CompleteEnv :=
  { srOk := true, mrOk := true, srOk2 := true, mrOk2 := true, rowExists := true,
    movieStatus := "Finished", renamerResult := "", moverResult := "",
    pathIsFile := false, cleanupOk := true }

/-- C3 (code bug, evaluated at the failing input): with renaming disabled the
report contains no `renamer` entry at all — the renamer-disabled branch
(line 416) stores its `{'enabled': False}` marker under the `mover` key, an
evident slip since the branch logs "Renamer disabled." and every other step's
disabled branch writes its own key; with renaming enabled a `renamer` entry
is always present. -/
theorem C3_renamer_entry_missing :
    cfgC3.renamerenabled = false ∧
    dlookup (complete cfgC3 dC3 envC3).tasks "renamer" = none ∧
    dlookup (complete cfgC3 dC3 envC3).tasks "mover" =
      some (RVal.vdict [("enabled", RVal.vbool false)]) ∧
    (∀ (cfg : Config) (d : PPData) (env : CompleteEnv), cfg.renamerenabled = true →
      (dlookup (complete cfg d env).tasks "renamer").isSome = true) := by
  refine ⟨rfl, rfl, rfl, ?_⟩
  intro cfg d env hren
  have hct : (complete cfg d env).tasks =
      dset (completeTasksPre cfg d env) "cleanup" (cleanupBranch cfg env).2.1 := rfl
  rw [hct, dlookup_dset_ne _ _ _ _ (by decide : ("cleanup" : String) ≠ "renamer")]
  have hrw : ∀ (dd : List (String × RVal)) (v : RVal),
      dlookup (dset dd "mover" v) "renamer" = dlookup dd "renamer" :=
    fun dd v => dlookup_dset_ne dd "mover" "renamer" v (by decide)
  unfold completeTasksPre
  by_cases hrr : env.renamerResult = "" <;>
  by_cases hme : cfg.moverenabled = true <;>
  by_cases hmr : env.moverResult = "" <;>
    simp [hren, hrr, hme, hmr, hrw, dlookup_dset_self]

/-- C9 (confirmed): a request missing a required key, or carrying a wrong api
key, or a mode other than `failed`/`complete`, is answered with
`{'response': False, 'error': msg}` and control never reaches the processing
section (line 67 onwards) where path remapping, file location, record updates
and the pipelines — all the side effects — happen. -/
theorem C9_post_validation (sk : String) (req : POSTReq)
    (h : req.apikey = none ∨ req.mode = none ∨ req.guid = none ∨ req.path = none ∨
         req.apikey ≠ some sk ∨
         (req.mode ≠ some "failed" ∧ req.mode ≠ some "complete")) :
    (∃ msg, (POST sk req).resp = errResp msg) ∧ (POST sk req).processed = false := by
  by_cases h1 : req.apikey = none
  · exact ⟨⟨"missing key: apikey", by simp [POST, h1]⟩, by simp [POST, h1]⟩
  · by_cases h2 : req.mode = none
    · exact ⟨⟨"missing key: mode", by simp [POST, h1, h2]⟩, by simp [POST, h1, h2]⟩
    · by_cases h3 : req.guid = none
      · exact ⟨⟨"missing key: guid", by simp [POST, h1, h2, h3]⟩,
          by simp [POST, h1, h2, h3]⟩
      · by_cases h4 : req.path = none
        · exact ⟨⟨"missing key: path", by simp [POST, h1, h2, h3, h4]⟩,
            by simp [POST, h1, h2, h3, h4]⟩
        · by_cases h5 : req.apikey = some sk
          · by_cases h6 : req.mode ≠ some "failed" ∧ req.mode ≠ some "complete"
            · exact ⟨⟨"invalid mode value", by simp [POST, h1, h2, h3, h4, h5, h6]⟩,
                by simp [POST, h1, h2, h3, h4, h5, h6]⟩
            · exfalso
              have h6a : req.mode = some "failed" ∨ req.mode = some "complete" := by
                by_cases hx : req.mode = some "failed"
                · exact Or.inl hx
                · right
                  by_cases hy : req.mode = some "complete"
                  · exact hy
                  · exact absurd ⟨hx, hy⟩ h6
              rcases h with hh | hh | hh | hh | hh | hh
              · exact h1 hh
              · exact h2 hh
              · exact h3 hh
              · exact h4 hh
              · exact hh h5
              · rcases h6a with hx | hx
                · exact hh.1 hx
                · exact hh.2 hx
          · exact ⟨⟨"incorrect api key", by simp [POST, h1, h2, h3, h4, h5]⟩,
              by simp [POST, h1, h2, h3, h4, h5]⟩

/-- C9 witness: the theorem applied at a request missing the api key. -/
theorem C9_witness :
    (∃ msg, (POST "secret"
        { apikey := none, mode := some "complete", guid := some "g",
          path := some "/p" }).resp = errResp msg) ∧
    (POST "secret"
        { apikey := none, mode := some "complete", guid := some "g",
          path := some "/p" }).processed = false :=
  C9_post_validation "secret"
    { apikey := none, mode := some "complete", guid := some "g", path := some "/p" }
    (Or.inl rfl)

/-- C10 (confirmed): for every configuration, request and combination of step
outcomes, `failed` returns a report with status `'finished'` whose tasks dict
has entries for `guid`, `update_movie_status`, `cleanup` and `autograb`; no
step failure changes the status or suppresses a later entry. -/
theorem C10_failed_report (cfg : Config) (d : PPData) (env : FailedEnv) :
    (failed cfg d env).status = "finished" ∧
    (dlookup (failed cfg d env).tasks "guid").isSome = true ∧
    (dlookup (failed cfg d env).tasks "update_movie_status").isSome = true ∧
    (dlookup (failed cfg d env).tasks "cleanup").isSome = true ∧
    (dlookup (failed cfg d env).tasks "autograb").isSome = true := by
  have g1 : ∀ (dd : List (String × RVal)) (v : RVal),
      dlookup (dset dd "autograb" v) "guid" = dlookup dd "guid" :=
    fun dd v => dlookup_dset_ne dd _ _ v (by decide)
  have g2 : ∀ (dd : List (String × RVal)) (v : RVal),
      dlookup (dset dd "cleanup" v) "guid" = dlookup dd "guid" :=
    fun dd v => dlookup_dset_ne dd _ _ v (by decide)
  have g3 : ∀ (dd : List (String × RVal)) (v : RVal),
      dlookup (dset dd "update_movie_status" v) "guid" = dlookup dd "guid" :=
    fun dd v => dlookup_dset_ne dd _ _ v (by decide)
  have g4 : ∀ (dd : List (String × RVal)) (v : RVal),
      dlookup (dset dd "guid2" v) "guid" = dlookup dd "guid" :=
    fun dd v => dlookup_dset_ne dd _ _ v (by decide)
  have u1 : ∀ (dd : List (String × RVal)) (v : RVal),
      dlookup (dset dd "autograb" v) "update_movie_status" =
        dlookup dd "update_movie_status" :=
    fun dd v => dlookup_dset_ne dd _ _ v (by decide)
  have u2 : ∀ (dd : List (String × RVal)) (v : RVal),
      dlookup (dset dd "cleanup" v) "update_movie_status" =
        dlookup dd "update_movie_status" :=
    fun dd v => dlookup_dset_ne dd _ _ v (by decide)
  have c1 : ∀ (dd : List (String × RVal)) (v : RVal),
      dlookup (dset dd "autograb" v) "cleanup" = dlookup dd "cleanup" :=
    fun dd v => dlookup_dset_ne dd _ _ v (by decide)
  refine ⟨rfl, ?_, ?_, ?_, ?_⟩
  · cases hg2 : d.guid2 <;>
      simp [failed, hg2, g1, g2, g3, g4, dlookup_dset_self, dlookup, dset]
  · simp [failed, u1, u2, dlookup_dset_self]
  · simp [failed, c1, dlookup_dset_self]
  · simp [failed, dlookup_dset_self]
